import Mathlib

/-!
Verification of the smolvlm-haiku-app orchestration core.

This file is a shallow embedding, in Lean 4, of the TypeScript source of the
repository `gaiar/smolvlm-haiku-app`:

* string helpers mirroring the JavaScript string operations used by the code
  (trim, whitespace collapse, case-insensitive removal, `includes`,
  `split(/\r?\n/)`, ...);
* `src/services/qwenHaikuService.ts` (the Language Service): `initialize`,
  `generateHaiku`, `cleanHaiku`, `stripAuxiliaryContent`, `createFallbackHaiku`;
* `src/services/smolvlmService.ts` (the Vision Service, analyzeImage variant):
  `analyzeImage`, `extractDescription`, `sanitizeDescription`;
* `src/App.tsx` (the orchestrator): `initModel`, `generateHaikuFromFrame`,
  `processFrame`, the retry callback, and the haiku history update.

Asynchronous model calls are modelled as explicit `Except String _` inputs
(the resolved or rejected promise), and React `useState`/`useRef` cells as
fields of an explicit state record.  Sequencing within one cycle is modelled
by explicit state passing; the single-threaded event loop means the body of
a cycle runs without interleaving, exactly as the source assumes.
-/

/-! ## JavaScript string primitives -/

/-- The character class matched by JavaScript `\s` (used by `trim`,
`replace(/\s+/g, ...)` and the haiku line validation regex). -/
def jsWhitespace (c : Char) : Bool :=
  c = ' ' || c = Char.ofNat 9 || c = Char.ofNat 10 || c = Char.ofNat 11 ||
  c = Char.ofNat 12 || c = Char.ofNat 13 || c = Char.ofNat 0xa0 ||
  c = Char.ofNat 0x1680 || (0x2000 ≤ c.toNat && c.toNat ≤ 0x200a) ||
  c = Char.ofNat 0x2028 || c = Char.ofNat 0x2029 || c = Char.ofNat 0x202f ||
  c = Char.ofNat 0x205f || c = Char.ofNat 0x3000 || c = Char.ofNat 0xfeff

/-- Drop trailing JS whitespace from a character list. -/
def trimRightChars (l : List Char) : List Char :=
  (l.reverse.dropWhile jsWhitespace).reverse

/-- JavaScript `String.prototype.trim` on a character list. -/
def jsTrimChars (l : List Char) : List Char :=
  trimRightChars (l.dropWhile jsWhitespace)

/-- JavaScript `String.prototype.trim`. -/
def jsTrim (s : String) : String := ⟨jsTrimChars s.data⟩

/-- Collapse each maximal run of JS whitespace to a single space (the
global replace of the regex \s+ used by the vision sanitizer).  The boolean
records whether the previous character was part of a whitespace run. -/
def collapseWsChars : Bool → List Char → List Char
  | _, [] => []
  | prevWs, c :: cs =>
    if jsWhitespace c then
      if prevWs then collapseWsChars true cs
      else ' ' :: collapseWsChars true cs
    else c :: collapseWsChars false cs

/-- Whitespace collapse at the `String` level. -/
def collapseWs (s : String) : String := ⟨collapseWsChars false s.data⟩

/-- JavaScript `String.prototype.toLowerCase` (ASCII range, which covers
every needle the source compares against). -/
def strToLower (s : String) : String := ⟨s.data.map Char.toLower⟩

/-- Does `needle` match literally at the head of `l`? -/
def matchesAt (needle : List Char) (l : List Char) : Bool :=
  match needle, l with
  | [], _ => true
  | _ :: _, [] => false
  | n :: ns, c :: cs => c = n && matchesAt ns cs

/-- Does `needle` occur anywhere in `hay`? -/
def containsSub (hay needle : List Char) : Bool :=
  match hay with
  | [] => matchesAt needle []
  | c :: cs => matchesAt needle (c :: cs) || containsSub cs needle

/-- JavaScript `String.prototype.includes`. -/
def strIncludes (hay needle : String) : Bool :=
  needle.data.isEmpty || containsSub hay.data needle.data

/-- JavaScript `String.prototype.split` with a non-empty literal separator:
split at every occurrence, keeping empty pieces.  `acc` holds the current
piece reversed; `fuel` bounds the recursion (the callers pass one more than
the list length, which suffices for a non-empty separator). -/
def splitOnCharsAux (sep : List Char) : Nat → List Char → List Char → List (List Char)
  | 0, l, acc => [acc.reverse ++ l]
  | _ + 1, [], acc => [acc.reverse]
  | fuel + 1, c :: cs, acc =>
    if matchesAt sep (c :: cs) then
      acc.reverse :: splitOnCharsAux sep fuel ((c :: cs).drop sep.length) []
    else splitOnCharsAux sep fuel cs (c :: acc)

/-- Split on a non-empty literal separator, at the character-list level. -/
def splitOnChars (sep : List Char) (l : List Char) : List (List Char) :=
  splitOnCharsAux sep (l.length + 1) l []

/-- Split on a non-empty literal separator, at the `String` level. -/
def strSplitOn (hay sep : String) : List String :=
  (splitOnChars sep.data hay.data).map fun piece => ⟨piece⟩

/-- Join a list of strings with a separator (`Array.prototype.join`). -/
def joinWithChars (sep : List Char) : List (List Char) → List Char
  | [] => []
  | [x] => x
  | x :: y :: rest => x ++ sep ++ joinWithChars sep (y :: rest)

/-- Join at the `String` level. -/
def strJoin (sep : String) (pieces : List String) : String :=
  ⟨joinWithChars sep.data (pieces.map String.data)⟩

/-- Does `needle` match case-insensitively at the head of `l`?
(`needle` is given already lowercased.) -/
def matchesAtCI (needle : List Char) (l : List Char) : Bool :=
  match needle, l with
  | [], _ => true
  | _ :: _, [] => false
  | n :: ns, c :: cs => c.toLower = n && matchesAtCI ns cs

/-- Index of the first case-insensitive occurrence of `needle` in `l`. -/
def findCI (needle : List Char) (l : List Char) : Option Nat :=
  match l with
  | [] => if matchesAtCI needle [] then some 0 else none
  | c :: cs =>
    if matchesAtCI needle (c :: cs) then some 0
    else (findCI needle cs).map (· + 1)

/-- Remove every non-overlapping `openT ... closeT` block, scanning left to
right and pairing each opening tag with the nearest following closing tag —
the behaviour of a global non-greedy regex such as
`/<think>[\s\S]*?<\/think>/gi`.  A lone opening tag without a closing tag is
left in place (the non-greedy pair regex does not match it).  `fuel` bounds
the recursion; the callers pass the list length, which always suffices. -/
def removeTagPairs (openT closeT : List Char) : Nat → List Char → List Char
  | 0, l => l
  | fuel + 1, l =>
    match findCI openT l with
    | none => l
    | some i =>
      let pre := l.take i
      let rest := l.drop (i + openT.length)
      match findCI closeT rest with
      | none => l
      | some j => pre ++ removeTagPairs openT closeT fuel (rest.drop (j + closeT.length))

/-- Remove from the first case-insensitive occurrence of `openT` to the end
of the string: `/<think>[\s\S]*/gi`. -/
def removeOpenTagTail (openT : List Char) (l : List Char) : List Char :=
  match findCI openT l with
  | some i => l.take i
  | none => l

/-- Remove every case-insensitive occurrence of `needle` (a global
case-insensitive literal replace with the empty string). -/
def removeAllCIFuel (needle : List Char) : Nat → List Char → List Char
  | 0, l => l
  | _ + 1, [] => []
  | fuel + 1, c :: cs =>
    if matchesAtCI needle (c :: cs) then
      removeAllCIFuel needle fuel ((c :: cs).drop needle.length)
    else c :: removeAllCIFuel needle fuel cs

/-- Global case-insensitive removal of a literal needle, at the `String`
needle level. -/
def removeAllCI (needle : String) (l : List Char) : List Char :=
  removeAllCIFuel (needle.data.map Char.toLower) l.length l

/-- The emoji ranges stripped by `qwenHaikuService`:
`/[\u{1F300}-\u{1F9FF}]|[\u{2600}-\u{26FF}]|[\u{2700}-\u{27BF}]/gu`. -/
def isStrippedEmoji (c : Char) : Bool :=
  (0x1F300 ≤ c.toNat && c.toNat ≤ 0x1F9FF) ||
  (0x2600 ≤ c.toNat && c.toNat ≤ 0x26FF) ||
  (0x2700 ≤ c.toNat && c.toNat ≤ 0x27BF)

/-- Drop a leading run of digits followed by a period and optional
whitespace: the line-enumeration-marker replace of `stripAuxiliaryContent`. -/
def stripLineNumberChars (l : List Char) : List Char :=
  let ds := l.takeWhile Char.isDigit
  if ds.isEmpty then l
  else
    match l.drop ds.length with
    | c :: rest => if c = '.' then rest.dropWhile jsWhitespace else l
    | [] => l

/-- JavaScript `split(/\r?\n/)`: split on `\n`, then strip one trailing
`\r` from each piece (a lone `\r` is not a separator). -/
def splitCRLF (s : String) : List String :=
  (splitOnChars [Char.ofNat 10] s.data).map fun part =>
    if part.getLastD ' ' = Char.ofNat 13 then ⟨part.dropLast⟩ else ⟨part⟩

/-! ## Language Service: `src/services/qwenHaikuService.ts` -/

/-- The handle/flag fields of a service singleton.  `tokenizer` and `model`
record whether the corresponding handle is non-null (for the vision service
these are the `processor` and `model` handles). -/
structure ServiceState where
  tokenizer : Bool
  model : Bool
  loading : Bool
  initialized : Bool
deriving DecidableEq

/-- A service before any `initialize` call: all handles null, all flags false. -/
def freshService : ServiceState :=
  { tokenizer := false, model := false, loading := false, initialized := false }

/-- How the model-acquisition part of `initialize` resolves:
the first `from_pretrained` call rejects, the second rejects, or both
succeed. -/
inductive LoadOutcome
  | firstFails
  | secondFails
  | success
deriving DecidableEq

/-- Embedding of `initialize(progressCallback)` of either service, as a
state transformer.
`events` is the number of progress events the loads would deliver to the
callback.  Returns the new state, the number of progress events actually
delivered, and whether the call threw (the promise rejected).
Mirrors `qwenHaikuService.ts` lines 105-136 / `smolvlmService.ts` lines
11-40: an early return when `initialized || loading`, otherwise
`loading := true`, the two loads, `initialized := true` on success, a
rethrow on failure, and `loading := false` in `finally`. -/
def svcInitialize (s : ServiceState) (o : LoadOutcome) (events : Nat) :
    ServiceState × Nat × Bool :=
  if s.initialized || s.loading then (s, 0, false)
  else
    match o with
    | .success =>
      ({ tokenizer := true, model := true, loading := false, initialized := true },
       events, false)
    | .firstFails => ({ s with loading := false }, events, true)
    | .secondFails => ({ s with tokenizer := true, loading := false }, events, true)

/-- Embedding of `stripAuxiliaryContent` (qwenHaikuService.ts lines
228-255): remove
complete and incomplete `<think>` blocks, code fences, `Assistant:`/`User:`
labels, trim, strip emoji, trim, drop leading line enumeration markers,
and reject outputs that read as reasoning (`okay,` / `let me`). -/
def stripAuxiliaryContent (text : String) : String :=
  let l0 := text.data
  let l1 := removeTagPairs "<think>".data "</think>".data l0.length l0
  let l2 := removeOpenTagTail "<think>".data l1
  let l3 := removeTagPairs "```".data "```".data l2.length l2
  let l4 := removeAllCI "Assistant:" l3
  let l5 := removeAllCI "User:" l4
  let cleaned1 : String := ⟨jsTrimChars l5⟩
  let cleaned2 : String := ⟨jsTrimChars (cleaned1.data.filter (fun c => !isStrippedEmoji c))⟩
  let cleaned3 : String :=
    strJoin "\n"
      ((strSplitOn cleaned2 "\n").map fun line =>
        String.mk (jsTrimChars (stripLineNumberChars line.data)))
  if strIncludes (strToLower cleaned3) "okay," || strIncludes (strToLower cleaned3) "let me"
  then ""
  else cleaned3

/-- The character class of the haiku line validation regex at
qwenHaikuService.ts line 220: ASCII letters, JS whitespace, the apostrophe,
standard punctuation, the en and em dashes and the ellipsis. -/
def allowedHaikuChar (c : Char) : Bool :=
  (65 ≤ c.toNat && c.toNat ≤ 90) || (97 ≤ c.toNat && c.toNat ≤ 122) ||
  jsWhitespace c || c = Char.ofNat 39 || c = ',' || c = '.' || c = '!' ||
  c = '?' || c = ';' || c = ':' || c = '-' || c = Char.ofNat 0x2013 ||
  c = Char.ofNat 0x2014 || c = Char.ofNat 0x2026

/-- Embedding of `cleanHaiku` (qwenHaikuService.ts lines 207-226): split
on CR-optional newlines,
trim, keep non-empty lines; if at least three remain, the first three are
accepted when each matches the allowed character set and is longer than two
characters; otherwise validation fails (`null`). -/
def cleanHaiku (text : String) : Option String :=
  if text = "" then none
  else
    let lines := ((splitCRLF text).map jsTrim).filter (fun line => line.length > 0)
    if lines.length ≥ 3 then
      let haikuLines := lines.take 3
      if haikuLines.all (fun line => line.data.all allowedHaikuChar && line.length > 2)
      then some (strJoin "\n" haikuLines)
      else none
    else none

/-- The night-themed fallback haiku. -/
def nightFallbackHaiku : String :=
  "Moonlit silence falls\nWhispers drift through cool night air\nStarlight hums softly"

/-- The morning-themed fallback haiku. -/
def morningFallbackHaiku : String :=
  "Morning dew awakes\nSunlight weaves through sleepy rooms\nDaybreak softly sighs"

/-- The water-themed fallback haiku. -/
def waterFallbackHaiku : String :=
  "Ripples hush the shore\nSilver currents wander slow\nWater learns to sing"

/-- The generic fallback haiku. -/
def genericFallbackHaiku : String :=
  "Silent pixels wait\nCooling fans hum quietly\nHaikus bloom again"

/-- Embedding of `createFallbackHaiku` (qwenHaikuService.ts lines
257-276): deterministic
keyword selection against the lowercased description, checked in the order
night, morning, water. -/
def createFallbackHaiku (description : String) : String :=
  if strIncludes (strToLower description) "night" then nightFallbackHaiku
  else if strIncludes (strToLower description) "morning" then morningFallbackHaiku
  else if strIncludes (strToLower description) "water" then waterFallbackHaiku
  else genericFallbackHaiku

/-- The trimmed request description, defaulted to a fixed phrase when it
trims to empty (qwenHaikuService.ts line 143). -/
def trimmedRequestDescription (description : String) : String :=
  let t := jsTrim description
  if t = "" then "a quiet unseen scene" else t

/-- Embedding of `generateHaiku(description)` (qwenHaikuService.ts lines
138-205).
`gen` is the resolved or rejected model-generation promise (the raw decoded
model output, or the error the inference machinery threw); the surrounding
deterministic control flow is embedded exactly: a `NotInitializedError` when
a handle is null, otherwise strip/validate, and on any failure the
deterministic fallback haiku for the (trimmed, defaulted) description. -/
def generateHaiku (svc : ServiceState) (description : String)
    (gen : Except String String) : Except String String :=
  if !svc.tokenizer || !svc.model then
    .error "Qwen haiku generator not initialized"
  else
    let trimmedDescription := trimmedRequestDescription description
    match gen with
    | .error _ => .ok (createFallbackHaiku trimmedDescription)
    | .ok rawGenerated =>
      match cleanHaiku (stripAuxiliaryContent rawGenerated) with
      | some cleaned => .ok cleaned
      | none => .ok (createFallbackHaiku trimmedDescription)

/-- Generation is treated as failed: either the model call itself rejected,
or the cleaned output failed validation (which includes detection of
reasoning/explanatory language inside `stripAuxiliaryContent`). -/
def generationFails (gen : Except String String) : Prop :=
  match gen with
  | .error _ => True
  | .ok rawGenerated => cleanHaiku (stripAuxiliaryContent rawGenerated) = none

/-! ## Vision Service: `smolvlmService.ts` (analyzeImage variant) -/

/-- The constant fallback description of the vision service. -/
def SMOLVLM_FALLBACK_DESCRIPTION : String := "A moment captured in stillness"

/-- The profanity denylist of `sanitizeDescription`. -/
def disallowedWords : List String := ["bitch", "fuck", "shit", "damn", "bastard"]

/-- Embedding of `sanitizeDescription` (smolvlmService.ts lines 145-160):
collapse
whitespace and trim; reject when empty; reject when the lowercased text
contains a denylisted word; otherwise return the normalized text. -/
def sanitizeDescription (rawDescription : String) : Option String :=
  let normalized := jsTrim (collapseWs rawDescription)
  if normalized = "" then none
  else if disallowedWords.any (fun w => strIncludes (strToLower normalized) w) then none
  else some normalized

/-- Embedding of `extractDescription` (smolvlmService.ts lines 129-143):
split on newlines,
trim, keep lines longer than ten characters, join with spaces, sanitize. -/
def extractDescription (text : String) : Option String :=
  let lines := ((strSplitOn text "\n").map jsTrim).filter (fun line => line.length > 10)
  if lines.length > 0 then sanitizeDescription (strJoin " " lines)
  else none

/-- The chat-formatting cleanup of `analyzeImage` (smolvlmService.ts lines
94-110): take the text after the last `Assistant:` label (falling back to
the whole text when that trims to empty), then the text before the first
`User:` label. -/
def cleanVisionResponse (generatedText : String) : String :=
  let c1 :=
    if strIncludes generatedText "Assistant:" then
      let t := jsTrim ((strSplitOn generatedText "Assistant:").getLastD "")
      if t = "" then generatedText else t
    else generatedText
  if strIncludes c1 "User:" then jsTrim ((strSplitOn c1 "User:").headD c1)
  else c1

/-- Embedding of `analyzeImage` (smolvlmService.ts lines 42-127).
`modelLoaded` and
`processorLoaded` are the null checks on the two handles; `inference` is the
resolved or rejected inference pipeline (image load, templating, generation
and decoding), whose success value is the raw generated text.  Internal
inference failure is caught and yields the constant fallback description;
a parsed description that fails sanitization also yields the fallback. -/
def analyzeImage (modelLoaded processorLoaded : Bool)
    (inference : Except String String) : Except String String :=
  if !modelLoaded || !processorLoaded then .error "SmolVLM not initialized"
  else
    match inference with
    | .error _ => .ok SMOLVLM_FALLBACK_DESCRIPTION
    | .ok generatedText =>
      match extractDescription (cleanVisionResponse generatedText) with
      | some description => .ok description
      | none => .ok SMOLVLM_FALLBACK_DESCRIPTION

/-! ## Orchestrator: `src/App.tsx` -/

/-- The capture interval constant of App.tsx: 10 * 1000 milliseconds. -/
def CAPTURE_INTERVAL : Nat := 10 * 1000

/-- The history bound constant of App.tsx: 10 entries. -/
def MAX_HAIKU_HISTORY : Nat := 10

/-- The 2000 ms delay of the `setTimeout` retry in `generateHaikuFromFrame`. -/
def retryDelayMs : Nat := 2000

/-- The constant emergency fallback haiku of the pipeline error path
(App.tsx `processFrame` catch branch). -/
def emergencyFallbackHaiku : String :=
  "Silent pixels wait\nWebGPU dreams unfulfilled\nRefresh brings new hope"

/-- One history record (App.tsx `HaikuEntry`).  `timestamp` is the epoch
milliseconds of `new Date()`. -/
structure HaikuEntry where
  haiku : String
  description : String
  timestamp : Nat
  id : String
deriving DecidableEq

/-- The loading-progress record (App.tsx `ModelProgressState`).  `stage`
and `phase` are the string
literals of the TypeScript union types. -/
structure ModelProgressState where
  stage : String
  phase : String
  message : String
  fileName : Option String
  percent : Option Nat
  detail : Option String
deriving DecidableEq

/-- The orchestrator state: the `useState` cells of `App` together with the
`processingRef` mutable cell (the mutual-exclusion flag). -/
structure AppState where
  modelLoading : Bool
  modelProgress : ModelProgressState
  currentHaiku : String
  imageDescription : String
  lastCaptureTime : Nat
  processingHaiku : Bool
  timeUntilNext : Nat
  haikuHistory : List HaikuEntry
  shouldAutoCapture : Bool
  errorMessage : String
  capturedImage : String
  languageModelReady : Bool
  modelWarning : Option String
  processingRef : Bool
deriving DecidableEq

/-- The initial values of the `useState`/`useRef` declarations of `App`
(`lastCaptureTime` models the mount-time `new Date()` as 0). -/
def initialAppState : AppState where
  modelLoading := true
  modelProgress :=
    { stage := "initializing", phase := "vision", message := "Preparing SmolVLM runtime",
      fileName := none, percent := none, detail := none }
  currentHaiku := ""
  imageDescription := ""
  lastCaptureTime := 0
  processingHaiku := false
  timeUntilNext := 0
  haikuHistory := []
  shouldAutoCapture := false
  errorMessage := ""
  capturedImage := ""
  languageModelReady := false
  modelWarning := none
  processingRef := false

/-- The history update of `processFrame` (App.tsx lines 703-706):
`[newEntry, ...prev].slice(0, MAX_HAIKU_HISTORY)`. -/
def updateHistory (newEntry : HaikuEntry) (prev : List HaikuEntry) : List HaikuEntry :=
  (newEntry :: prev).take MAX_HAIKU_HISTORY

/-- The result of `smolVLMService.analyzeImageAndGenerateHaiku`. -/
structure VisionOut where
  description : String
  haiku : String
deriving DecidableEq

/-- The environment of one capture trigger: the external probe readings and
the resolutions of the asynchronous service calls made during the cycle.
`frameData` is the first `captureFrame()` result, `retryFrameData` the one
inside the 2-second retry callback; `videoPresent` and `videoReady` are the
`videoRef.current` and `readyState >= HAVE_CURRENT_DATA` checks at retry
time; `visionResult` and `qwenResult` are the awaited service promises. -/
structure CycleEnv where
  smolInitialized : Bool
  qwenInitialized : Bool
  frameData : Option String
  videoPresent : Bool
  videoReady : Bool
  retryFrameData : Option String
  visionResult : Except String VisionOut
  qwenResult : Except String String
  timestamp : Nat

/-- An orchestrator state paired with a count of how many times the cycle
set (`processingRef.current = true`) and cleared
(`processingRef.current = false`) the mutual-exclusion flag. -/
structure Traced where
  state : AppState
  flagSets : Nat
  flagClears : Nat
deriving DecidableEq

/-- Embedding of `processFrame(data)` (App.tsx lines 653-726): set the
flag, run the
describing stage, optionally the composing stage (whose rejection is caught
by a dedicated inner handler), append to history and re-arm the countdown;
a rejection escaping to the outer catch yields the emergency fallback haiku
and still re-arms; the `finally` clause clears the flag. -/
def processFrame (env : CycleEnv) (data : String) (s : AppState) : Traced :=
  let s1 := { s with processingRef := true, processingHaiku := true,
                     errorMessage := "", capturedImage := data }
  match env.visionResult with
  | .error e =>
    { state :=
        { s1 with
          errorMessage := "Failed to generate haiku: " ++ e,
          currentHaiku := emergencyFallbackHaiku,
          shouldAutoCapture := true,
          timeUntilNext := CAPTURE_INTERVAL / 1000,
          processingRef := false, processingHaiku := false },
      flagSets := 1, flagClears := 1 }
  | .ok result =>
    let s2 :=
      if result.description = "A moment captured through the lens" then
        { s1 with errorMessage := "Using fallback - SmolVLM may not be working properly" }
      else s1
    let composed : String × AppState :=
      if s2.languageModelReady && env.qwenInitialized then
        match env.qwenResult with
        | .ok qwenHaiku => (qwenHaiku, s2)
        | .error he =>
          (result.haiku,
           { s2 with errorMessage := "Haiku generator fallback in use: " ++ he })
      else (result.haiku, s2)
    let finalHaiku := composed.1
    let s3 := composed.2
    let newEntry : HaikuEntry :=
      { haiku := finalHaiku, description := result.description,
        timestamp := env.timestamp, id := "haiku-" ++ toString env.timestamp }
    { state :=
        { s3 with
          imageDescription := result.description,
          currentHaiku := finalHaiku,
          lastCaptureTime := env.timestamp,
          haikuHistory := updateHistory newEntry s3.haikuHistory,
          shouldAutoCapture := true,
          timeUntilNext := CAPTURE_INTERVAL / 1000,
          processingRef := false, processingHaiku := false },
      flagSets := 1, flagClears := 1 }

/-- The synchronous part of `generateHaikuFromFrame` (App.tsx lines
618-651): the mutual-exclusion guard, the first capture attempt, and —
when capture returns null — an error message plus the scheduling of exactly
one retry (returned as `some retryDelayMs`). -/
def triggerCapture (env : CycleEnv) (s : AppState) : Traced × Option Nat :=
  if !env.smolInitialized || s.processingRef then
    ({ state := s, flagSets := 0, flagClears := 0 }, none)
  else
    let s1 := { s with errorMessage := "" }
    match env.frameData with
    | some data => (processFrame env data s1, none)
    | none =>
      ({ state := { s1 with errorMessage := "Failed to capture frame - camera may not be ready" },
         flagSets := 0, flagClears := 0 },
       some retryDelayMs)

/-- The body of the 2-second `setTimeout` retry (App.tsx lines 630-647). -/
def retryCallback (env : CycleEnv) (s : AppState) : Traced :=
  if !s.processingRef && env.videoPresent then
    if env.videoReady then
      match env.retryFrameData with
      | some data => processFrame env data s
      | none =>
        { state := { s with errorMessage := "Camera capture failed after retry" },
          flagSets := 0, flagClears := 0 }
    else
      { state := { s with errorMessage := "Camera is still initializing, please wait..." },
        flagSets := 0, flagClears := 0 }
  else { state := s, flagSets := 0, flagClears := 0 }

/-- One full capture trigger (`generateHaikuFromFrame` plus, when a retry
was scheduled, the later run of its callback). -/
def runTrigger (env : CycleEnv) (s : AppState) : Traced :=
  match triggerCapture env s with
  | (t, none) => t
  | (t, some _) =>
    let r := retryCallback env t.state
    { state := r.state, flagSets := t.flagSets + r.flagSets,
      flagClears := t.flagClears + r.flagClears }

/-- Embedding of `initModel` (App.tsx lines 458-610), as a function of
the resolutions of
the two service initializations.  Transient `setModelProgress` updates made
by the progress callbacks are elided: each is overwritten before `initModel`
resolves.  When WebGPU is unsupported the function returns without touching
state. -/
def initModel (supported : Bool) (s : AppState)
    (visionInit : Except String Unit) (qwenInit : Except String Unit) : AppState :=
  if !supported then s
  else
    let s0 := { s with modelWarning := none, languageModelReady := false }
    match visionInit with
    | .error msg =>
      { s0 with
        modelProgress :=
          { stage := "error", phase := "error", message := "Failed to load vision model",
            fileName := none, percent := none, detail := some msg },
        modelLoading := false }
    | .ok _ =>
      let s1 :=
        match qwenInit with
        | .ok _ => { s0 with languageModelReady := true }
        | .error _ =>
          { s0 with
            modelWarning := some "Haiku generator failed to load. Using fallback haikus from SmolVLM." }
      let qwenReady := match qwenInit with | .ok _ => true | .error _ => false
      { s1 with
        modelProgress :=
          { stage := "ready",
            phase := if qwenReady then "finalizing" else "vision",
            message := if qwenReady then "Models ready"
                       else "Vision model ready (haikus will use fallback)",
            fileName := none, percent := some 100,
            detail := if qwenReady then none
                      else some "Haiku generator unavailable; fallback haikus will be used." },
        modelLoading := false }

/-- The history after a sequence of completed cycles, oldest first: the fold
of the `processFrame` history update over the produced entries, starting
from the empty history. -/
def runCompletions (entries : List HaikuEntry) : List HaikuEntry :=
  entries.foldl (fun h e => updateHistory e h) []

deriving instance DecidableEq for Except

/-! ## Helper lemmas -/

theorem take_append_take (a x : List HaikuEntry) (n : Nat) :
    (a ++ x.take n).take n = (a ++ x).take n := by
  rw [List.take_append_eq_append_take, List.take_append_eq_append_take, List.take_take,
    Nat.min_eq_left (Nat.sub_le n a.length)]

theorem foldl_updateHistory (es : List HaikuEntry) :
    ∀ h : List HaikuEntry, h.length ≤ MAX_HAIKU_HISTORY →
      es.foldl (fun h e => updateHistory e h) h = (es.reverse ++ h).take MAX_HAIKU_HISTORY := by
  induction es with
  | nil =>
    intro h hl
    simp [List.take_of_length_le hl]
  | cons e es ih =>
    intro h hl
    have hlen : (updateHistory e h).length ≤ MAX_HAIKU_HISTORY := by
      simp [updateHistory]
    rw [List.foldl_cons, ih (updateHistory e h) hlen, List.reverse_cons, List.append_assoc,
      List.singleton_append, updateHistory, take_append_take]

theorem processFrame_err (env : CycleEnv) (data : String) (s : AppState) (e : String)
    (h : env.visionResult = Except.error e) :
    processFrame env data s =
      { state :=
          { s with
            errorMessage := "Failed to generate haiku: " ++ e,
            currentHaiku := emergencyFallbackHaiku,
            capturedImage := data,
            shouldAutoCapture := true,
            timeUntilNext := CAPTURE_INTERVAL / 1000,
            processingRef := false, processingHaiku := false },
        flagSets := 1, flagClears := 1 } := by
  simp [processFrame, h]

theorem processFrame_ok (env : CycleEnv) (data : String) (s : AppState) (r : VisionOut)
    (h : env.visionResult = Except.ok r) :
    ∃ hk em,
      hk = (if s.languageModelReady && env.qwenInitialized then
              (match env.qwenResult with | .ok q => q | .error _ => r.haiku)
            else r.haiku) ∧
      processFrame env data s =
        { state :=
            { s with
              imageDescription := r.description,
              currentHaiku := hk,
              lastCaptureTime := env.timestamp,
              haikuHistory :=
                updateHistory
                  { haiku := hk, description := r.description, timestamp := env.timestamp,
                    id := "haiku-" ++ toString env.timestamp }
                  s.haikuHistory,
              shouldAutoCapture := true,
              timeUntilNext := CAPTURE_INTERVAL / 1000,
              errorMessage := em,
              capturedImage := data,
              processingRef := false, processingHaiku := false },
          flagSets := 1, flagClears := 1 } := by
  by_cases hq : (s.languageModelReady && env.qwenInitialized) = true
  · cases hqr : env.qwenResult with
    | ok q =>
      refine ⟨q,
        if r.description = "A moment captured through the lens" then
          "Using fallback - SmolVLM may not be working properly" else "",
        by simp [hq, hqr], ?_⟩
      by_cases hd : r.description = "A moment captured through the lens" <;>
        simp [processFrame, h, hq, hqr, hd]
    | error he =>
      refine ⟨r.haiku, "Haiku generator fallback in use: " ++ he, by simp [hq, hqr], ?_⟩
      by_cases hd : r.description = "A moment captured through the lens" <;>
        simp [processFrame, h, hq, hqr, hd]
  · refine ⟨r.haiku,
      if r.description = "A moment captured through the lens" then
        "Using fallback - SmolVLM may not be working properly" else "",
      by simp [hq], ?_⟩
    by_cases hd : r.description = "A moment captured through the lens" <;>
      simp [processFrame, h, hq, hd]

theorem processFrame_flag (env : CycleEnv) (data : String) (s : AppState) :
    (processFrame env data s).flagSets = 1 ∧ (processFrame env data s).flagClears = 1 ∧
    (processFrame env data s).state.processingRef = false := by
  cases h : env.visionResult with
  | error e => rw [processFrame_err env data s e h]; exact ⟨rfl, rfl, rfl⟩
  | ok r =>
    obtain ⟨hk, em, _, heq⟩ := processFrame_ok env data s r h
    rw [heq]; exact ⟨rfl, rfl, rfl⟩

theorem retryCallback_flag (env : CycleEnv) (s : AppState) (h : s.processingRef = false) :
    (retryCallback env s).state.processingRef = false := by
  unfold retryCallback
  cases hv : env.videoPresent with
  | false => simp [h, hv]
  | true =>
    cases hr : env.videoReady with
    | false => simp [h, hv, hr]
    | true =>
      cases hf : env.retryFrameData with
      | some d => simp [h, hv, hr, hf, (processFrame_flag env d s).2.2]
      | none => simp [h, hv, hr, hf]

theorem runTrigger_flag_clear (env : CycleEnv) (s : AppState) (h : s.processingRef = false) :
    (runTrigger env s).state.processingRef = false := by
  unfold runTrigger triggerCapture
  cases hg : env.smolInitialized with
  | false => simp [h, hg]
  | true =>
    cases hf : env.frameData with
    | some data => simp [h, hg, hf, (processFrame_flag env data _).2.2]
    | none =>
      have h2 := retryCallback_flag env
        { s with errorMessage := "Failed to capture frame - camera may not be ready" } h
      simp only [h] at h2
      simp [h, hg, hf, h2]

/-! ## Claim theorems -/

/-- C1: At most one Processing Pipeline cycle is active at any time: a capture
trigger (manual or scheduled) arriving while the mutual-exclusion flag
(`processingRef`) is set returns immediately as a no-op — the full trigger run
(including any retry) leaves the whole orchestrator state, and in particular
the history log, unchanged, and never touches the flag.  The second conjunct
covers the scheduled path, whose timer disarms its own one-shot flag before
invoking the trigger. -/
theorem trigger_noop_when_flag_set (env : CycleEnv) (s : AppState)
    (h : s.processingRef = true) :
    runTrigger env s = { state := s, flagSets := 0, flagClears := 0 } ∧
    (runTrigger env { s with shouldAutoCapture := false }).state =
      { s with shouldAutoCapture := false } := by
  constructor
  · simp [runTrigger, triggerCapture, h]
  · simp [runTrigger, triggerCapture, h]

/-- Witness for C1 at a concrete state and environment. -/
theorem trigger_noop_when_flag_set_witness :
    runTrigger
        ⟨true, true, some "img", true, true, none, Except.ok ⟨"d", "h"⟩, Except.ok "q", 5⟩
        { initialAppState with processingRef := true } =
      { state := { initialAppState with processingRef := true }, flagSets := 0, flagClears := 0 } ∧
    (runTrigger
        ⟨true, true, some "img", true, true, none, Except.ok ⟨"d", "h"⟩, Except.ok "q", 5⟩
        { { initialAppState with processingRef := true } with shouldAutoCapture := false }).state =
      { { initialAppState with processingRef := true } with shouldAutoCapture := false } :=
  trigger_noop_when_flag_set
    ⟨true, true, some "img", true, true, none, Except.ok ⟨"d", "h"⟩, Except.ok "q", 5⟩
    { initialAppState with processingRef := true } rfl

/-- C2: For every sequence of completed cycles (given as the list of entries
they produce, oldest first), the resulting history is the reverse of that
list truncated to `MAX_HAIKU_HISTORY = 10` — i.e. ordered most-recent-first,
each completion prepending one entry and evicting the oldest beyond the
bound, with every surviving entry equal to the entry as inserted — and its
length is `min N 10`. -/
theorem history_bounded_most_recent_first (entries : List HaikuEntry) :
    runCompletions entries = entries.reverse.take MAX_HAIKU_HISTORY ∧
    (runCompletions entries).length = min entries.length MAX_HAIKU_HISTORY := by
  have h := foldl_updateHistory entries [] (by simp)
  rw [List.append_nil] at h
  refine ⟨h, ?_⟩
  rw [runCompletions, h, List.length_take, List.length_reverse, Nat.min_comm]

/-- C9: calling `initialize` on a service that is already ready (or already
loading) returns immediately: zero progress events are delivered, nothing is
thrown, and the state — model handles and lifecycle flags — is unchanged. -/
theorem initialize_idempotent (s : ServiceState) (o : LoadOutcome) (events : Nat)
    (h : s.initialized = true ∨ s.loading = true) :
    svcInitialize s o events = (s, 0, false) := by
  rcases h with h | h <;> simp [svcInitialize, h]

/-- Witness for C9 on a ready service. -/
theorem initialize_idempotent_witness :
    svcInitialize ⟨true, true, false, true⟩ LoadOutcome.success 7 =
      (⟨true, true, false, true⟩, 0, false) :=
  initialize_idempotent ⟨true, true, false, true⟩ LoadOutcome.success 7 (Or.inl rfl)

/-- C3: when frame capture returns null, the trigger schedules exactly one
retry with a 2000 ms (2 second) delay.  If the retry capture succeeds (and
the describing stage resolves), exactly one history entry is produced for
the cycle; if the retry also returns null, the error message
"Camera capture failed after retry" is surfaced and the cycle aborts with
the history, the auto-capture arming flag and the countdown all unchanged. -/
theorem capture_null_retries_once (env : CycleEnv) (s : AppState)
    (hInit : env.smolInitialized = true) (hFlag : s.processingRef = false)
    (hNull : env.frameData = none) :
    (triggerCapture env s).2 = some retryDelayMs ∧
    retryDelayMs = 2000 ∧
    (∀ d r, env.videoPresent = true → env.videoReady = true →
      env.retryFrameData = some d → env.visionResult = Except.ok r →
      (runTrigger env s).state.haikuHistory.length =
        min (s.haikuHistory.length + 1) MAX_HAIKU_HISTORY) ∧
    (env.videoPresent = true → env.videoReady = true → env.retryFrameData = none →
      (runTrigger env s).state.haikuHistory = s.haikuHistory ∧
      (runTrigger env s).state.errorMessage = "Camera capture failed after retry" ∧
      (runTrigger env s).state.shouldAutoCapture = s.shouldAutoCapture ∧
      (runTrigger env s).state.timeUntilNext = s.timeUntilNext) := by
  refine ⟨by simp [triggerCapture, hInit, hFlag, hNull], rfl, ?_, ?_⟩
  · intro d r hvp hvr hrf hr
    obtain ⟨hk, em, _, heq⟩ := processFrame_ok env d
      { s with errorMessage := "Failed to capture frame - camera may not be ready" } r hr
    simp only [hFlag] at heq
    simp [runTrigger, triggerCapture, retryCallback, hInit, hFlag, hNull, hvp, hvr, hrf, heq,
      updateHistory, Nat.min_comm]
  · intro hvp hvr hrf
    simp [runTrigger, triggerCapture, retryCallback, hInit, hFlag, hNull, hvp, hvr, hrf]

/-- Witness for C3: concrete null-capture environments, one with a successful
retry and one with a failed retry. -/
theorem capture_null_retries_once_witness :
    (triggerCapture
        ⟨true, true, none, true, true, some "img2", Except.ok ⟨"d", "h"⟩, Except.ok "q", 5⟩
        initialAppState).2 = some retryDelayMs ∧
    (runTrigger
        ⟨true, true, none, true, true, some "img2", Except.ok ⟨"d", "h"⟩, Except.ok "q", 5⟩
        initialAppState).state.haikuHistory.length =
      min (initialAppState.haikuHistory.length + 1) MAX_HAIKU_HISTORY ∧
    (runTrigger
        ⟨true, true, none, true, true, none, Except.ok ⟨"d", "h"⟩, Except.ok "q", 5⟩
        initialAppState).state.haikuHistory = initialAppState.haikuHistory ∧
    (runTrigger
        ⟨true, true, none, true, true, none, Except.ok ⟨"d", "h"⟩, Except.ok "q", 5⟩
        initialAppState).state.errorMessage = "Camera capture failed after retry" := by
  have t1 := capture_null_retries_once
    ⟨true, true, none, true, true, some "img2", Except.ok ⟨"d", "h"⟩, Except.ok "q", 5⟩
    initialAppState rfl rfl rfl
  have t2 := capture_null_retries_once
    ⟨true, true, none, true, true, none, Except.ok ⟨"d", "h"⟩, Except.ok "q", 5⟩
    initialAppState rfl rfl rfl
  exact ⟨t1.1, t1.2.2.1 "img2" ⟨"d", "h"⟩ rfl rfl rfl rfl,
    (t2.2.2.2 rfl rfl rfl).1, (t2.2.2.2 rfl rfl rfl).2.1⟩

/-- C6 counterexample: a trigger whose capture returns null and whose retry
also returns null runs the capturing stage and aborts, yet the
mutual-exclusion flag is never set on entry into capturing and is cleared
zero times — not exactly once — on that exit path. -/
theorem capture_abort_never_touches_flag :
    (runTrigger
        ⟨true, true, none, true, true, none, Except.ok ⟨"d", "h"⟩, Except.ok "q", 0⟩
        initialAppState).flagSets = 0 ∧
    (runTrigger
        ⟨true, true, none, true, true, none, Except.ok ⟨"d", "h"⟩, Except.ok "q", 0⟩
        initialAppState).flagClears = 0 ∧
    ¬((runTrigger
        ⟨true, true, none, true, true, none, Except.ok ⟨"d", "h"⟩, Except.ok "q", 0⟩
        initialAppState).flagClears = 1) := by
  decide

/-- C6 amended: the flag is set on entry into the processing stage — which
the code enters only once a frame has actually been acquired, not at the
start of the capturing attempt — and every exit path of processing (success
or error) sets it exactly once and clears it exactly once, leaving it clear;
a full trigger run started with the flag clear always ends with it clear,
and the capture-abort paths (null capture whose retry fails or is skipped)
never touch the flag at all. -/
theorem processing_flag_discipline (env : CycleEnv) (data : String) (s : AppState)
    (h : s.processingRef = false) :
    (processFrame env data s).flagSets = 1 ∧
    (processFrame env data s).flagClears = 1 ∧
    (processFrame env data s).state.processingRef = false ∧
    (runTrigger env s).state.processingRef = false ∧
    (env.frameData = none → env.retryFrameData = none →
      (runTrigger env s).flagSets = 0 ∧ (runTrigger env s).flagClears = 0) := by
  refine ⟨(processFrame_flag env data s).1, (processFrame_flag env data s).2.1,
    (processFrame_flag env data s).2.2, runTrigger_flag_clear env s h, ?_⟩
  intro hNull hrf
  cases hg : env.smolInitialized with
  | false => simp [runTrigger, triggerCapture, hg]
  | true =>
    cases hvp : env.videoPresent with
    | false => simp [runTrigger, triggerCapture, retryCallback, h, hg, hNull, hvp]
    | true =>
      cases hvr : env.videoReady with
      | false => simp [runTrigger, triggerCapture, retryCallback, h, hg, hNull, hvp, hvr]
      | true => simp [runTrigger, triggerCapture, retryCallback, h, hg, hNull, hvp, hvr, hrf]

/-- Witness for the amended C6 at a concrete environment and state. -/
theorem processing_flag_discipline_witness :
    (processFrame
        ⟨true, true, some "img", true, true, none, Except.ok ⟨"d", "h"⟩, Except.ok "q", 3⟩
        "img" initialAppState).flagSets = 1 ∧
    (processFrame
        ⟨true, true, some "img", true, true, none, Except.ok ⟨"d", "h"⟩, Except.ok "q", 3⟩
        "img" initialAppState).flagClears = 1 ∧
    (runTrigger
        ⟨true, true, some "img", true, true, none, Except.ok ⟨"d", "h"⟩, Except.ok "q", 3⟩
        initialAppState).state.processingRef = false := by
  have t := processing_flag_discipline
    ⟨true, true, some "img", true, true, none, Except.ok ⟨"d", "h"⟩, Except.ok "q", 3⟩
    "img" initialAppState rfl
  exact ⟨t.1, t.2.1, t.2.2.2.1⟩

/-- C7 counterexample: a failed initialization does not latch a `failed`
state — the call throws, but the resulting service state is exactly the
fresh uninitialized state, and a subsequent `initialize` call on it runs
again and reaches `ready`. -/
theorem init_failure_not_latched :
    (svcInitialize freshService LoadOutcome.firstFails 3).2.2 = true ∧
    (svcInitialize freshService LoadOutcome.firstFails 3).1 = freshService ∧
    (svcInitialize (svcInitialize freshService LoadOutcome.firstFails 3).1
        LoadOutcome.success 2).1.initialized = true := by
  decide

/-- C7 amended: each service tracks its lifecycle with `loading` and
`initialized` flags covering the states uninitialized, loading and ready;
re-entrant `initialize` while loading or ready is a no-op; an initialization
failure surfaces the error and leaves the service neither ready nor loading
— observationally the uninitialized state rather than a latched `failed`
state — so a later `initialize` call may retry and can reach `ready`. -/
theorem service_lifecycle (s : ServiceState) (o : LoadOutcome) (events : Nat) :
    (s.initialized = true ∨ s.loading = true → svcInitialize s o events = (s, 0, false)) ∧
    (s.initialized = false → s.loading = false → o ≠ LoadOutcome.success →
      (svcInitialize s o events).1.initialized = false ∧
      (svcInitialize s o events).1.loading = false ∧
      (svcInitialize s o events).2.2 = true) ∧
    (s.initialized = false → s.loading = false →
      (svcInitialize s LoadOutcome.success events).1.initialized = true ∧
      (svcInitialize s LoadOutcome.success events).2.2 = false) := by
  refine ⟨fun h => ?_, fun h1 h2 h3 => ?_, fun h1 h2 => ?_⟩
  · rcases h with h | h <;> simp [svcInitialize, h]
  · cases o with
    | success => exact absurd rfl h3
    | firstFails => simp [svcInitialize, h1, h2]
    | secondFails => simp [svcInitialize, h1, h2]
  · simp [svcInitialize, h1, h2]

/-- Witness for the amended C7 on the fresh service. -/
theorem service_lifecycle_witness :
    ((svcInitialize freshService LoadOutcome.secondFails 4).1.initialized = false ∧
      (svcInitialize freshService LoadOutcome.secondFails 4).1.loading = false ∧
      (svcInitialize freshService LoadOutcome.secondFails 4).2.2 = true) ∧
    ((svcInitialize freshService LoadOutcome.success 4).1.initialized = true ∧
      (svcInitialize freshService LoadOutcome.success 4).2.2 = false) := by
  have t := service_lifecycle freshService LoadOutcome.secondFails 4
  exact ⟨t.2.1 rfl rfl (by decide), t.2.2 rfl rfl⟩

/-- C8: if Language Service initialization rejects (after a successful
vision initialization), `initModel` still reaches the ready state —
`modelLoading` cleared, progress stage "ready" — with
`languageModelReady = false` and a non-null warning message, and a
subsequent cycle on that state still completes: its current haiku is the
vision-derived haiku and one entry with that haiku is prepended to the
history log. -/
theorem language_init_failure_degrades (s : AppState) (e : String)
    (env : CycleEnv) (data : String) (r : VisionOut)
    (hr : env.visionResult = Except.ok r) :
    (initModel true s (Except.ok ()) (Except.error e)).modelLoading = false ∧
    (initModel true s (Except.ok ()) (Except.error e)).modelProgress.stage = "ready" ∧
    (initModel true s (Except.ok ()) (Except.error e)).languageModelReady = false ∧
    (initModel true s (Except.ok ()) (Except.error e)).modelWarning =
      some "Haiku generator failed to load. Using fallback haikus from SmolVLM." ∧
    (initModel true s (Except.ok ()) (Except.error e)).modelWarning ≠ none ∧
    (processFrame env data (initModel true s (Except.ok ()) (Except.error e))).state.currentHaiku
      = r.haiku ∧
    (processFrame env data (initModel true s (Except.ok ()) (Except.error e))).state.haikuHistory
      = updateHistory
          { haiku := r.haiku, description := r.description, timestamp := env.timestamp,
            id := "haiku-" ++ toString env.timestamp }
          (initModel true s (Except.ok ()) (Except.error e)).haikuHistory := by
  obtain ⟨hk, em, hhk, heq⟩ :=
    processFrame_ok env data (initModel true s (Except.ok ()) (Except.error e)) r hr
  have hlang : (initModel true s (Except.ok ()) (Except.error e)).languageModelReady = false := by
    simp [initModel]
  have hk' : hk = r.haiku := by rw [hhk]; simp [hlang]
  rw [hk'] at heq
  refine ⟨by simp [initModel], by simp [initModel], hlang, by simp [initModel],
    by simp [initModel], ?_, ?_⟩ <;> rw [heq]

/-- Witness for C8 at a concrete state, rejection and follow-up cycle. -/
theorem language_init_failure_degrades_witness :
    (initModel true initialAppState (Except.ok ()) (Except.error "dl failed")).languageModelReady
      = false ∧
    (initModel true initialAppState (Except.ok ()) (Except.error "dl failed")).modelWarning
      ≠ none ∧
    (processFrame
        ⟨true, false, some "img", true, true, none,
          Except.ok ⟨"a quiet rainy street", "vision haiku"⟩, Except.error "unused", 9⟩
        "img"
        (initModel true initialAppState (Except.ok ()) (Except.error "dl failed"))
      ).state.currentHaiku = "vision haiku" := by
  have t := language_init_failure_degrades initialAppState "dl failed"
    ⟨true, false, some "img", true, true, none,
      Except.ok ⟨"a quiet rainy street", "vision haiku"⟩, Except.error "unused", 9⟩
    "img" ⟨"a quiet rainy street", "vision haiku"⟩ rfl
  exact ⟨t.2.2.1, t.2.2.2.2.1, t.2.2.2.2.2.1⟩

/-- C10 counterexample: an exception thrown by the composing stage (the
language-service call rejecting while `languageModelReady` is set and the
service reports initialized) does not take the emergency-fallback path: the
cycle completes, appends one entry to the history log, and shows the
vision-stage haiku — not the constant emergency fallback text — as the
current haiku. -/
theorem composing_exception_appends_history :
    (processFrame
        ⟨true, true, some "img", true, true, none, Except.ok ⟨"a desc", "vision haiku"⟩,
          Except.error "boom", 7⟩
        "img" { initialAppState with languageModelReady := true }).state.haikuHistory.length
      = 1 ∧
    (processFrame
        ⟨true, true, some "img", true, true, none, Except.ok ⟨"a desc", "vision haiku"⟩,
          Except.error "boom", 7⟩
        "img" { initialAppState with languageModelReady := true }).state.currentHaiku
      = "vision haiku" ∧
    ¬((processFrame
        ⟨true, true, some "img", true, true, none, Except.ok ⟨"a desc", "vision haiku"⟩,
          Except.error "boom", 7⟩
        "img" { initialAppState with languageModelReady := true }).state.currentHaiku
      = emergencyFallbackHaiku) := by
  decide

/-- C10 amended: when an exception reaches the outer catch of the pipeline — the
describing stage rejecting — the orchestrator sets the current haiku to the
constant emergency fallback text, records the error message, and re-arms the
auto-capture countdown, but appends no entry to the history log; the
history, image description, last capture time, language readiness and
warning are unchanged, and both processing flags end cleared.  (An exception
of the composing stage is caught by a dedicated inner handler instead: the
cycle completes with the vision-stage haiku and does append an entry.) -/
theorem describing_exception_frame_effect (env : CycleEnv) (data : String) (s : AppState)
    (e : String) (h : env.visionResult = Except.error e) :
    (processFrame env data s).state.currentHaiku = emergencyFallbackHaiku ∧
    (processFrame env data s).state.errorMessage = "Failed to generate haiku: " ++ e ∧
    (processFrame env data s).state.shouldAutoCapture = true ∧
    (processFrame env data s).state.timeUntilNext = CAPTURE_INTERVAL / 1000 ∧
    (processFrame env data s).state.haikuHistory = s.haikuHistory ∧
    (processFrame env data s).state.imageDescription = s.imageDescription ∧
    (processFrame env data s).state.lastCaptureTime = s.lastCaptureTime ∧
    (processFrame env data s).state.languageModelReady = s.languageModelReady ∧
    (processFrame env data s).state.modelWarning = s.modelWarning ∧
    (processFrame env data s).state.processingRef = false ∧
    (processFrame env data s).state.processingHaiku = false := by
  rw [processFrame_err env data s e h]
  exact ⟨rfl, rfl, rfl, rfl, rfl, rfl, rfl, rfl, rfl, rfl, rfl⟩

/-- Witness for the amended C10 at a concrete rejecting describing stage. -/
theorem describing_exception_frame_effect_witness :
    (processFrame
        ⟨true, true, some "img", true, true, none, Except.error "vlm crashed",
          Except.ok "q", 2⟩
        "img" initialAppState).state.currentHaiku = emergencyFallbackHaiku ∧
    (processFrame
        ⟨true, true, some "img", true, true, none, Except.error "vlm crashed",
          Except.ok "q", 2⟩
        "img" initialAppState).state.haikuHistory = initialAppState.haikuHistory ∧
    (processFrame
        ⟨true, true, some "img", true, true, none, Except.error "vlm crashed",
          Except.ok "q", 2⟩
        "img" initialAppState).state.shouldAutoCapture = true := by
  have t := describing_exception_frame_effect
    ⟨true, true, some "img", true, true, none, Except.error "vlm crashed", Except.ok "q", 2⟩
    "img" initialAppState "vlm crashed" rfl
  exact ⟨t.1, t.2.2.2.2.1, t.2.2.1⟩

/-- C4: on an initialized Language Service (both handles non-null), whenever
generation fails — the model call rejects, or the cleaned output fails
validation or is detected to contain reasoning language — `generateHaiku`
never raises: it returns the deterministic content-aware fallback haiku for
the (trimmed, defaulted) input description, selected by keyword match in the
order night, morning, water, else the generic fallback.  The second conjunct
states that the call never raises for any generation outcome. -/
theorem generateHaiku_fallback_selection (svc : ServiceState) (description : String)
    (gen : Except String String) (hTok : svc.tokenizer = true) (hMod : svc.model = true)
    (hFail : generationFails gen) :
    generateHaiku svc description gen =
      Except.ok (createFallbackHaiku (trimmedRequestDescription description)) ∧
    (∀ g : Except String String, ∃ hk, generateHaiku svc description g = Except.ok hk) ∧
    (strIncludes (strToLower (trimmedRequestDescription description)) "night" = true →
      createFallbackHaiku (trimmedRequestDescription description) = nightFallbackHaiku) ∧
    (strIncludes (strToLower (trimmedRequestDescription description)) "night" = false →
      strIncludes (strToLower (trimmedRequestDescription description)) "morning" = true →
      createFallbackHaiku (trimmedRequestDescription description) = morningFallbackHaiku) ∧
    (strIncludes (strToLower (trimmedRequestDescription description)) "night" = false →
      strIncludes (strToLower (trimmedRequestDescription description)) "morning" = false →
      strIncludes (strToLower (trimmedRequestDescription description)) "water" = true →
      createFallbackHaiku (trimmedRequestDescription description) = waterFallbackHaiku) ∧
    (strIncludes (strToLower (trimmedRequestDescription description)) "night" = false →
      strIncludes (strToLower (trimmedRequestDescription description)) "morning" = false →
      strIncludes (strToLower (trimmedRequestDescription description)) "water" = false →
      createFallbackHaiku (trimmedRequestDescription description) = genericFallbackHaiku) := by
  refine ⟨?_, ?_, fun h1 => by simp [createFallbackHaiku, h1],
    fun h1 h2 => by simp [createFallbackHaiku, h1, h2],
    fun h1 h2 h3 => by simp [createFallbackHaiku, h1, h2, h3],
    fun h1 h2 h3 => by simp [createFallbackHaiku, h1, h2, h3]⟩
  · cases gen with
    | error e => simp [generateHaiku, hTok, hMod]
    | ok rawGenerated =>
      have hf : cleanHaiku (stripAuxiliaryContent rawGenerated) = none := hFail
      simp [generateHaiku, hTok, hMod, hf]
  · intro g
    cases g with
    | error e =>
      exact ⟨createFallbackHaiku (trimmedRequestDescription description),
        by simp [generateHaiku, hTok, hMod]⟩
    | ok rawGenerated =>
      cases hc : cleanHaiku (stripAuxiliaryContent rawGenerated) with
      | none =>
        exact ⟨createFallbackHaiku (trimmedRequestDescription description),
          by simp [generateHaiku, hTok, hMod, hc]⟩
      | some cleaned => exact ⟨cleaned, by simp [generateHaiku, hTok, hMod, hc]⟩

/-- Witness for C4: reasoning-style output for a night description. -/
theorem generateHaiku_fallback_selection_witness :
    generateHaiku ⟨true, true, false, true⟩ "calm night sky" (Except.ok "Okay, here is") =
      Except.ok (createFallbackHaiku (trimmedRequestDescription "calm night sky")) ∧
    createFallbackHaiku (trimmedRequestDescription "calm night sky") = nightFallbackHaiku := by
  have hf : cleanHaiku (stripAuxiliaryContent "Okay, here is") = none := by decide
  have t := generateHaiku_fallback_selection ⟨true, true, false, true⟩ "calm night sky"
    (Except.ok "Okay, here is") rfl rfl hf
  exact ⟨t.1, t.2.2.1 (by decide)⟩

/-- C5: on an initialized Vision Service, `analyzeImage` never propagates an
internal inference failure — it always returns a description — and the
returned description is either the constant fallback description or a value
accepted by `sanitizeDescription`; every value `sanitizeDescription` accepts
is the whitespace-collapsed, trimmed input, is non-empty, and contains no
denylisted term (rejected inputs never reach the caller — the first conjunct
shows rejection always yields the fallback instead). -/
theorem analyzeImage_sanitized :
    (∀ inference : Except String String, ∃ d,
        analyzeImage true true inference = Except.ok d ∧
        (d = SMOLVLM_FALLBACK_DESCRIPTION ∨ ∃ c, sanitizeDescription c = some d)) ∧
    (∀ c d, sanitizeDescription c = some d →
        d = jsTrim (collapseWs c) ∧ d ≠ "" ∧
        disallowedWords.all (fun w => !(strIncludes (strToLower d) w)) = true) := by
  constructor
  · intro inference
    cases inference with
    | error e =>
      exact ⟨SMOLVLM_FALLBACK_DESCRIPTION, by simp [analyzeImage], Or.inl rfl⟩
    | ok generatedText =>
      cases he : extractDescription (cleanVisionResponse generatedText) with
      | none =>
        exact ⟨SMOLVLM_FALLBACK_DESCRIPTION, by simp [analyzeImage, he], Or.inl rfl⟩
      | some d =>
        refine ⟨d, by simp [analyzeImage, he], Or.inr ?_⟩
        simp only [extractDescription] at he
        by_cases hl :
            (((strSplitOn (cleanVisionResponse generatedText) "\n").map jsTrim).filter
              (fun line => line.length > 10)).length > 0
        · rw [if_pos hl] at he
          exact ⟨_, he⟩
        · rw [if_neg hl] at he
          exact absurd he (by simp)
  · intro c d h
    simp only [sanitizeDescription] at h
    by_cases h1 : jsTrim (collapseWs c) = ""
    · rw [if_pos h1] at h
      exact absurd h (by simp)
    · rw [if_neg h1] at h
      by_cases h2 :
          (disallowedWords.any fun w => strIncludes (strToLower (jsTrim (collapseWs c))) w) = true
      · rw [if_pos h2] at h
        exact absurd h (by simp)
      · rw [if_neg h2] at h
        have hd : jsTrim (collapseWs c) = d := Option.some.inj h
        subst hd
        refine ⟨rfl, h1, ?_⟩
        simp only [List.any_eq_true, not_exists, not_and, Bool.not_eq_true] at h2
        simp only [List.all_eq_true, Bool.not_eq_true']
        intro w hw
        exact h2 w hw

/-- Witness for C5: an inference failure and a concrete accepted
sanitization. -/
theorem analyzeImage_sanitized_witness :
    (∃ d, analyzeImage true true (Except.error "inference crashed") = Except.ok d ∧
      (d = SMOLVLM_FALLBACK_DESCRIPTION ∨ ∃ c, sanitizeDescription c = some d)) ∧
    ("a calm room" = jsTrim (collapseWs "  a  calm   room ") ∧ "a calm room" ≠ "" ∧
      disallowedWords.all (fun w => !(strIncludes (strToLower "a calm room") w)) = true) :=
  ⟨analyzeImage_sanitized.1 (Except.error "inference crashed"),
   analyzeImage_sanitized.2 "  a  calm   room " "a calm room" (by decide)⟩
